import Mathlib

/-!
Verification of the batch background-removal service:
shallow embedding of the batch routers (app/routers/background_remover.py,
app/routers/background_remover_parallel.py), the image helpers
(app/helpers/image.py) and the Prefect flow
(workflows/flows/background_remover.py), together with theorems about the
batch dispatch, aggregation, archive-building and polling behaviour.

Image payloads (Python bytes) are modelled as lists of naturals; strings are
Lean strings, with the Python string operations modelled on the underlying
character lists.
-/

/-- Python `bytes` payloads, modelled as lists of byte values. -/
abbrev ImageBytes := List Nat

/- ### Constants (app/constants.py) -/

def MAX_BATCH_SIZE : Nat := 10

def MEDIA_TYPE_ZIP : String := "application/zip"

def DEFAULT_IMAGE_NAME : String := "image"

def PNG_EXTENSION : String := ".png"

/- ### Python string primitives, modelled on character lists -/

/-- Model of Python `s.startswith(t)` at character-list level:
`listBeginsWith s t` is true when `t` is an initial run of `s`. -/
def listBeginsWith : List Char → List Char → Bool
  | _, [] => true
  | [], _ :: _ => false
  | a :: as, b :: bs => a = b && listBeginsWith as bs

/-- Model of Python `s.endswith(t)` at character-list level. -/
def listEndsWith (s t : List Char) : Bool :=
  listBeginsWith s.reverse t.reverse

/-- Model of Python `s.endswith(t)` on strings. -/
def pyEndsWith (s t : String) : Bool := listEndsWith s.data t.data

/-- Model of Python `s.startswith(t)` on strings. -/
def pyStartsWithStr (s t : String) : Bool := listBeginsWith s.data t.data

/-- Safe filename character test: Python
`c.isalnum() or c in SAFE_FILENAME_CHARS` with `SAFE_FILENAME_CHARS = "._-"`
(modelled on the ASCII range). -/
def isSafeChar (c : Char) : Bool :=
  c.isAlphanum || c = '.' || c = '_' || c = '-'

/- ### Decimal rendering of naturals (model of Python `str(n)` / f-strings) -/

/-- The decimal digit character for `d` (callers pass `n % 10`). -/
def digitChar : Nat → Char
  | 0 => '0' | 1 => '1' | 2 => '2' | 3 => '3' | 4 => '4'
  | 5 => '5' | 6 => '6' | 7 => '7' | 8 => '8' | _ => '9'

/-- Inverse of `digitChar` on digit characters. -/
def digitVal (c : Char) : Nat :=
  if c = '0' then 0 else if c = '1' then 1 else if c = '2' then 2
  else if c = '3' then 3 else if c = '4' then 4 else if c = '5' then 5
  else if c = '6' then 6 else if c = '7' then 7 else if c = '8' then 8 else 9

/-- Fuelled accumulator loop producing the decimal digits of `n`
(most significant first) in front of `acc`. -/
def natDigitsCore : Nat → Nat → List Char → List Char
  | 0, _, acc => acc
  | fuel + 1, n, acc =>
    if n = 0 then acc else natDigitsCore fuel (n / 10) (digitChar (n % 10) :: acc)

/-- Decimal digit list of a natural number, model of Python `str(n)`. -/
def natDigits (n : Nat) : List Char :=
  if n = 0 then ['0'] else natDigitsCore (n + 1) n []

/-- Decimal rendering of a natural as a string. -/
def natRepr (n : Nat) : String := ⟨natDigits n⟩

/-- Value of a digit list, used to read the position index back out of an
archive filename. -/
def digitsVal (l : List Char) : Nat :=
  l.foldl (fun a c => a * 10 + digitVal c) 0

/- ### urllib.parse.urlparse(url).path, modelled on character lists -/

/-- Characters allowed in a URL scheme (`urllib.parse.scheme_chars`). -/
def isSchemeChar (c : Char) : Bool :=
  c.isAlpha || c.isDigit || c = '+' || c = '-' || c = '.'

/-- A valid scheme: nonempty, starts with an ASCII letter, all scheme chars. -/
def validScheme : List Char → Bool
  | [] => false
  | c :: cs => c.isAlpha && (c :: cs).all isSchemeChar

/-- Split a character list at the first occurrence of `c`, if any. -/
def splitFirstChar (c : Char) : List Char → Option (List Char × List Char)
  | [] => none
  | x :: xs =>
    if x = c then some ([], xs)
    else (splitFirstChar c xs).map (fun p => (x :: p.1, p.2))

/-- The last `/`-separated segment of a character list:
Python `s.split(sep)[-1]` (the whole list when no separator occurs). -/
def lastSegAfter (sep : Char) (l : List Char) : List Char :=
  (l.reverse.takeWhile (fun c => c ≠ sep)).reverse

/-- Model of `urllib.parse._splitparams` applied to a path: drop a trailing
`;params` suffix of the last path segment. -/
def splitParams (path : List Char) : List Char :=
  let lastSeg := lastSegAfter '/' path
  path.take (path.length - lastSeg.length) ++ lastSeg.takeWhile (fun c => c ≠ ';')

/-- Schemes for which `urlparse` separates `;params` from the path
(`urllib.parse.uses_params`). -/
def usesParamsSchemes : List (List Char) :=
  ["", "ftp", "hdl", "prospero", "http", "imap", "https", "shttp", "rtsp",
   "rtspu", "sip", "sips", "mms", "sftp", "tel"].map String.data

/-- Model of `urllib.parse.urlparse(url).path`: strip the scheme (when the
text before the first colon is a valid scheme), the `//netloc` part
(up to the next `/`, `?` or `#`), the fragment and the query; for schemes in
`uses_params` additionally strip the `;params` of the last segment. -/
def urlparsePath (url : List Char) : List Char :=
  let p := match splitFirstChar ':' url with
    | some (before, after) =>
      if validScheme before then (before.map Char.toLower, after) else ([], url)
    | none => ([], url)
  let scheme := p.1
  let u2 := match p.2 with
    | '/' :: '/' :: rest =>
      rest.dropWhile (fun c => !(c = '/' || c = '?' || c = '#'))
    | u1 => u1
  let u3 := u2.takeWhile (fun c => c ≠ '#')
  let u4 := u3.takeWhile (fun c => c ≠ '?')
  if usesParamsSchemes.contains scheme then splitParams u4 else u4

/- ### create_zip_archive (app/helpers/image.py) -/

/-- The filename generated for position `i` (0-based loop index of
`enumerate`) and source URL `url` inside `create_zip_archive`:

`filename = f"image_THE-INDEX_THE-SEGMENT.png"` with the 1-based index and the
last path segment of the URL (or `DEFAULT_IMAGE_NAME` when empty), then every
character that is not alphanumeric or in `._-` removed, then `.png` appended
when the result does not already end in `.png`. -/
def zipFilename (i : Nat) (url : String) : String :=
  let seg := lastSegAfter '/' (urlparsePath url.data)
  let seg := if seg.isEmpty then DEFAULT_IMAGE_NAME.data else seg
  let composed : List Char :=
    "image_".data ++ natDigits (i + 1) ++ "_".data ++ seg ++ PNG_EXTENSION.data
  let stripped := composed.filter isSafeChar
  if listEndsWith stripped PNG_EXTENSION.data then ⟨stripped⟩
  else ⟨stripped ++ PNG_EXTENSION.data⟩

/-- The loop of `create_zip_archive`: `for i, (url, processed_image) in
enumerate(processed_images): if processed_image is not None: ...`, writing one
archive entry per non-`None` payload.  The archive itself is modelled as its
ordered list of (filename, bytes) entries. -/
def zipEntriesFrom (i : Nat) : List (String × Option ImageBytes) → List (String × ImageBytes)
  | [] => []
  | (url, pb) :: rest =>
    match pb with
    | some b => (zipFilename i url, b) :: zipEntriesFrom (i + 1) rest
    | none => zipEntriesFrom (i + 1) rest

/-- `create_zip_archive(processed_images)` from app/helpers/image.py,
returning the ordered entry list of the produced ZIP archive. -/
def create_zip_archive (processed_images : List (String × Option ImageBytes)) :
    List (String × ImageBytes) :=
  zipEntriesFrom 0 processed_images

/- ### Remote environment model -/

/-- An HTTP response observed by `httpx` when fetching a URL. -/
structure HttpResponseModel where
  statusCode : Nat
  contentType : String
  content : ImageBytes
deriving DecidableEq

/-- Behaviour of the network for one GET: either a response arrives or the
transport fails (connection error, timeout, ...). -/
inductive FetchBehavior
  | resp (r : HttpResponseModel)
  | transportFail (msg : String)
deriving DecidableEq

/-- The error raised inside `fetch_image`: transport failure from `httpx`,
`raise_for_status` on a non-2xx/3xx status, or the `HTTPException` raised for
a content type that does not start with `image/`. -/
inductive FetchError
  | transport (msg : String)
  | httpStatus (code : Nat)
  | nonImage (contentType : String)
deriving DecidableEq

/-- Rendering of a fetch error, model of Python `str(e)`. -/
def fetchErrorMessage : FetchError → String
  | .transport m => m
  | .httpStatus c => "HTTP status error " ++ natRepr c
  | .nonImage ct => "URL does not point to an image. Content-Type: " ++ ct

/-- A remote operation performed by the service, recorded so that theorems can
speak about which remote calls were attempted. -/
inductive RemoteCall
  | fetch (url : String)
  | process (url : String)
  | runDeployment (name : String)
deriving DecidableEq

/-- `fetch_image(url)` from app/helpers/image.py: GET the URL,
`raise_for_status`, reject content types that do not start with `image/`, and
return the body.  The network behaviour is the parameter `env`; the second
component records the attempted remote call. -/
def fetch_image (env : String → FetchBehavior) (url : String) :
    Except FetchError ImageBytes × List RemoteCall :=
  match env url with
  | .transportFail m => (.error (.transport m), [.fetch url])
  | .resp r =>
    if 400 ≤ r.statusCode then (.error (.httpStatus r.statusCode), [.fetch url])
    else if !pyStartsWithStr r.contentType "image/" then
      (.error (.nonImage r.contentType), [.fetch url])
    else (.ok r.content, [.fetch url])

/- ### Synchronous batch router (app/routers/background_remover.py) -/

/-- `process_image_for_batch(url)` from `remove_backgrounds_batch`: fetch the
image, remove its background via the client (behaviour `proc`), return
`(url, processed)` and on any exception `(url, None)`.  The call log records
the remote operations that were attempted. -/
def process_image_for_batch (env : String → FetchBehavior)
    (proc : ImageBytes → Except String ImageBytes) (url : String) :
    (String × Option ImageBytes) × List RemoteCall :=
  match fetch_image env url with
  | (.error _, log) => ((url, none), log)
  | (.ok b, log) =>
    match proc b with
    | .error _ => ((url, none), log ++ [.process url])
    | .ok pb => ((url, some pb), log ++ [.process url])

/-- The per-item outcomes of the synchronous batch:
`results = await asyncio.gather(*tasks)` with one task per input URL, in
input order. -/
def batchOutcomes (env : String → FetchBehavior)
    (proc : ImageBytes → Except String ImageBytes) (urls : List String) :
    List (String × Option ImageBytes) :=
  urls.map (fun u => (process_image_for_batch env proc u).1)

/-- The remote calls attempted while processing the batch. -/
def batchCalls (env : String → FetchBehavior)
    (proc : ImageBytes → Except String ImageBytes) (urls : List String) :
    List RemoteCall :=
  (urls.map (fun u => (process_image_for_batch env proc u).2)).flatten

/-- The error raised by a FastAPI endpoint (`HTTPException`). -/
structure HttpError where
  statusCode : Nat
  detail : String
deriving DecidableEq

/-- The 200 response of the synchronous batch endpoint: a ZIP archive
(modelled by its entry list) served as `application/zip`. -/
structure ZipResponse where
  statusCode : Nat
  content : List (String × ImageBytes)
  mediaType : String
deriving DecidableEq

/-- The successful subset of the batch outcomes:
`[(url, img) for url, img in results if img is not None]`. -/
def successfulResults (results : List (String × Option ImageBytes)) :
    List (String × ImageBytes) :=
  results.filterMap (fun p => p.2.map (fun b => (p.1, b)))

/-- `remove_backgrounds_batch(request)` from
app/routers/background_remover.py: reject empty batches and batches larger
than `MAX_BATCH_SIZE` with HTTP 400 before any remote call, process all
images in parallel, reject with HTTP 500 when nothing succeeded, and
otherwise return the ZIP archive of the successful results.  The second
component records every remote call attempted. -/
def remove_backgrounds_batch (env : String → FetchBehavior)
    (proc : ImageBytes → Except String ImageBytes) (urls : List String) :
    Except HttpError ZipResponse × List RemoteCall :=
  if urls.isEmpty then
    (.error ⟨400, "At least one image URL is required"⟩, [])
  else if MAX_BATCH_SIZE < urls.length then
    (.error ⟨400, "Maximum 10 images allowed per batch request"⟩, [])
  else
    let results := batchOutcomes env proc urls
    let successful := successfulResults results
    if successful.isEmpty then
      (.error ⟨500, "Failed to process any of the provided images"⟩,
        batchCalls env proc urls)
    else
      (.ok { statusCode := 200,
             content := create_zip_archive (successful.map (fun p => (p.1, some p.2))),
             mediaType := MEDIA_TYPE_ZIP },
        batchCalls env proc urls)

/- ### Asynchronous submission (app/routers/background_remover_parallel.py) -/

/-- A Prefect flow run as returned by `run_deployment`. -/
structure FlowRunHandle where
  id : String
deriving DecidableEq

/-- The deployment path passed to `run_deployment`
(`f"BATCH_BACKGROUND_REMOVAL_DEPLOYMENT/BATCH_BACKGROUND_REMOVAL_FLOW"`; the
two constants are referenced by the router but are absent from
app/constants.py, so a representative value is used — no claim depends on
the exact text). -/
def BATCH_DEPLOYMENT_PATH : String :=
  "batch-background-removal-deployment/batch-background-removal"

/-- The body returned by `start_batch_processing`. -/
structure StartBatchResponse where
  flow_id : String
  message : String
  status : String
  image_count : Nat
deriving DecidableEq

/-- `start_batch_processing(request)` from
app/routers/background_remover_parallel.py: reject empty batches and batches
larger than `MAX_BATCH_SIZE` with HTTP 400, then start the deployment with a
single `run_deployment` call carrying the whole URL list and return its
`flow_id`.  `engine` maps the deployment name to the created flow run; the
second component records the engine invocations performed. -/
def start_batch_processing (engine : String → FlowRunHandle)
    (urls : List String) : Except HttpError StartBatchResponse × List RemoteCall :=
  if urls.isEmpty then
    (.error ⟨400, "At least one image URL is required"⟩, [])
  else if MAX_BATCH_SIZE < urls.length then
    (.error ⟨400, "Maximum " ++ natRepr MAX_BATCH_SIZE ++
      " images allowed per batch request"⟩, [])
  else
    let flowRun := engine BATCH_DEPLOYMENT_PATH
    (.ok { flow_id := flowRun.id,
           message := "Started processing " ++ natRepr urls.length ++ " images",
           status := "RUNNING",
           image_count := urls.length },
      [.runDeployment BATCH_DEPLOYMENT_PATH])

/- ### Prefect flow (workflows/flows/background_remover.py) -/

/-- The fetch performed inside `remove_background_single_image`: a plain
`httpx` GET with `raise_for_status` and no content-type check. -/
def flowFetch (env : String → FetchBehavior) (url : String) :
    Except FetchError ImageBytes :=
  match env url with
  | .transportFail m => .error (.transport m)
  | .resp r =>
    if 400 ≤ r.statusCode then .error (.httpStatus r.statusCode)
    else .ok r.content

/-- `remove_background_single_image(image_url, api_url, api_key)`: fetch the
image, process it with the client, and return
`(image_url, processed_image, None)` on success or
`(image_url, None, error_message)` when any exception was caught. -/
def remove_background_single_image (env : String → FetchBehavior)
    (proc : ImageBytes → Except String ImageBytes) (url : String) :
    String × Option ImageBytes × Option String :=
  match flowFetch env url with
  | .error e =>
    (url, none, some ("Failed to process " ++ url ++ ": " ++ fetchErrorMessage e))
  | .ok b =>
    match proc b with
    | .error m => (url, none, some ("Failed to process " ++ url ++ ": " ++ m))
    | .ok pb => (url, some pb, none)

/-- One element of the `results` list assembled by
`batch_background_removal_flow`. -/
structure TaskItemResult where
  url : String
  success : Bool
  error : Option String
  has_data : Bool
deriving DecidableEq

/-- One element of the `failed_results` list. -/
structure FailedItem where
  url : String
  error : Option String
deriving DecidableEq

/-- The collection loop of `batch_background_removal_flow`: for each task
result `(url, image_bytes, error)` append an entry to `results`, and append
`(url, image_bytes)` to `successful_results` when `error is None and
image_bytes is not None`, otherwise append to `failed_results`. -/
def flowCollect :
    List (String × Option ImageBytes × Option String) →
    List TaskItemResult × List (String × ImageBytes) × List FailedItem
  | [] => ([], [], [])
  | (url, pb, err) :: rest =>
    let acc := flowCollect rest
    let entry : TaskItemResult :=
      { url := url, success := err.isNone, error := err, has_data := pb.isSome }
    match pb, err with
    | some b, none => (entry :: acc.1, (url, b) :: acc.2.1, acc.2.2)
    | _, err => (entry :: acc.1, acc.2.1, ⟨url, err⟩ :: acc.2.2)

/-- The dictionary returned by `batch_background_removal_flow`. -/
structure FlowResult where
  total_images : Nat
  successful_count : Nat
  failed_count : Nat
  successful_results : List (String × ImageBytes)
  failed_results : List FailedItem
  processing_complete : Bool
deriving DecidableEq

/-- The `results` list assembled by the flow, one entry per submitted task. -/
def flowItemResults (env : String → FetchBehavior)
    (proc : ImageBytes → Except String ImageBytes) (urls : List String) :
    List TaskItemResult :=
  (flowCollect (urls.map (remove_background_single_image env proc))).1

/-- `batch_background_removal_flow(image_urls, api_url, api_key)`: submit one
task per URL, collect every task result, and return the aggregate
dictionary. -/
def batch_background_removal_flow (env : String → FetchBehavior)
    (proc : ImageBytes → Except String ImageBytes) (image_urls : List String) :
    FlowResult :=
  let collected := flowCollect (image_urls.map (remove_background_single_image env proc))
  { total_images := image_urls.length,
    successful_count := collected.2.1.length,
    failed_count := collected.2.2.length,
    successful_results := collected.2.1,
    failed_results := collected.2.2,
    processing_complete := true }

/- ### Status endpoint (get_batch_status) -/

/-- Prefect state types relevant to the status endpoint. -/
inductive PrefectStateType
  | PENDING
  | RUNNING
  | COMPLETED
  | FAILED
  | CRASHED
  | CANCELLED
deriving DecidableEq

/-- `state.is_completed()`. -/
def stateIsCompleted (s : PrefectStateType) : Bool := s = .COMPLETED

/-- `state.is_failed()`. -/
def stateIsFailed (s : PrefectStateType) : Bool := s = .FAILED

/-- `state.is_running()`. -/
def stateIsRunning (s : PrefectStateType) : Bool := s = .RUNNING

/-- A task run as read back from the Prefect client (`state` is `None` when
the task has no state yet). -/
structure TaskRun where
  state : Option PrefectStateType
deriving DecidableEq

/-- The `progress` part of the `get_batch_status` response. -/
structure ProgressReport where
  total_tasks : Nat
  completed_tasks : Nat
  successful_tasks : Nat
  failed_tasks : Nat
deriving DecidableEq

/-- The task-progress computation of `get_batch_status` from
app/routers/background_remover_parallel.py: `total_tasks = len(task_runs)`,
completed counts `t.state and t.state.is_completed()`, successful counts
`t.state and t.state.is_completed() and not t.state.is_failed()`, failed
counts `t.state and t.state.is_failed()`. -/
def get_batch_status_progress (task_runs : List TaskRun) : ProgressReport :=
  { total_tasks := task_runs.length,
    completed_tasks :=
      (task_runs.filter (fun t => t.state.any stateIsCompleted)).length,
    successful_tasks :=
      (task_runs.filter (fun t =>
        t.state.any (fun s => stateIsCompleted s && !stateIsFailed s))).length,
    failed_tasks :=
      (task_runs.filter (fun t => t.state.any stateIsFailed)).length }

/- ### Download endpoint (download_batch_results) -/

/-- A flow run as read back by the download endpoint. -/
structure FlowRunInfo where
  state : Option PrefectStateType
deriving DecidableEq

/-- The 200 response of the download endpoint. -/
structure DownloadResponse where
  statusCode : Nat
  content : List (String × ImageBytes)
  mediaType : String
  filename : String
deriving DecidableEq

/-- `download_batch_results(flow_id)` from
app/routers/background_remover_parallel.py: 404 when the flow run is not
found; 400 when its state is neither completed nor running; 202 while still
running; 500 when the flow result cannot be retrieved (`result` is falsy or
not a dict, modelled by `none`); 404 with detail
"No successfully processed images found" when the completed result holds no
successful items; otherwise the ZIP archive of the successful results with a
partial/complete filename. -/
def download_batch_results (flowRun : Option FlowRunInfo)
    (result : Option FlowResult) (flowId : String) :
    Except HttpError DownloadResponse :=
  match flowRun with
  | none => .error ⟨404, "Flow " ++ flowId ++ " not found"⟩
  | some fr =>
    if !(fr.state.any (fun s => stateIsCompleted s || stateIsRunning s)) then
      .error ⟨400, "Flow has not completed or is not running. No results available."⟩
    else if fr.state.any stateIsCompleted then
      match result with
      | none => .error ⟨500, "Could not retrieve flow results"⟩
      | some r =>
        if r.successful_results.isEmpty then
          .error ⟨404, "No successfully processed images found"⟩
        else
          let total_count := r.total_images
          let successful_count := r.successful_results.length
          let partialFlag := decide (successful_count < total_count)
          .ok { statusCode := 200,
                content := create_zip_archive
                  (r.successful_results.map (fun p => (p.1, some p.2))),
                mediaType := MEDIA_TYPE_ZIP,
                filename :=
                  (if partialFlag then "partial_" else "complete_") ++
                  "batch_results_" ++ natRepr successful_count ++ "_of_" ++
                  natRepr total_count ++ ".zip" }
    else
      .error ⟨202, "Flow is still running. Please check status endpoint for progress."⟩

/- ### Per-handle polling (Async Job Correlator) -/

/-- State of one submitted unit of work as observed through the workflow
engine. -/
inductive JobState
  | RUNNING
  | COMPLETED_SUCCESS (payload : ImageBytes)
  | COMPLETED_FAILURE (error : String)
  | UNKNOWN
deriving DecidableEq

/-- Whether a job state is a successful terminal state. -/
def jobIsCompletedSuccess : JobState → Bool
  | .COMPLETED_SUCCESS _ => true
  | _ => false

/-- The per-item outcome reported by a status poll. -/
structure ItemOutcome where
  success : Bool
  error : Option String
deriving DecidableEq

/-- Modelled from the spec: the per-handle poll of the Async Job Correlator
(the `/api/v2/remove-backgrounds/results` endpoint exercised by
tests/app/routers/test_background_remover_parallel.py is absent from the
sources; only its tests and the `ProcessingResult`/`BatchImageResponse`
models remain).  Per §4.3: a handle still `RUNNING` is reported with
`success: false` and no error; `COMPLETED_SUCCESS` with `success: true`;
`COMPLETED_FAILURE` with `success: false` and the error; an unknown handle
yields `success: false` with a lookup-failure error instead of aborting the
poll. -/
def pollHandle (engine : String → JobState) (h : String) : ItemOutcome :=
  match engine h with
  | .RUNNING => { success := false, error := none }
  | .COMPLETED_SUCCESS _ => { success := true, error := none }
  | .COMPLETED_FAILURE e => { success := false, error := some e }
  | .UNKNOWN => { success := false, error := some "lookup failed" }

/-- The batch summary returned by a status poll. -/
structure PollBatchResult where
  total_count : Nat
  success_count : Nat
  outcomes : List (String × ItemOutcome)
deriving DecidableEq

/-- Modelled from the spec: `poll(handles) -> BatchResult` of §4.3 — query the
engine for each handle, count as successful exactly the outcomes with
`success`, and report `total_count` as the number of polled handles. -/
def pollBatch (engine : String → JobState) (handles : List String) :
    PollBatchResult :=
  let outcomes := handles.map (fun h => (h, pollHandle engine h))
  { total_count := outcomes.length,
    success_count := (outcomes.filter (fun p => p.2.success)).length,
    outcomes := outcomes }

/- ### Spec-side filename algorithm (§4.4), for the refinement claim -/

/-- The filename algorithm exactly as the spec words it, for a 1-based
position index `i` within the successful subset: take the last path segment
of the URL, or the placeholder "image" if it is empty; compose
`image_`, the index, `_`, the segment and `.png`; strip every character that
is not alphanumeric or in `._-`; and append `.png` if the result does not
already end in `.png`. -/
def specArchiveFilename (i : Nat) (url : String) : String :=
  let segment := lastSegAfter '/' (urlparsePath url.data)
  let segment := if segment.isEmpty then DEFAULT_IMAGE_NAME.data else segment
  let composed : List Char :=
    "image_".data ++ natDigits i ++ "_".data ++ segment ++ PNG_EXTENSION.data
  let stripped := composed.filter isSafeChar
  if listEndsWith stripped PNG_EXTENSION.data then ⟨stripped⟩
  else ⟨stripped ++ PNG_EXTENSION.data⟩

/-- The position index encoded in an archive filename: the value of the digit
run following the `image_` marker.  Used to separate filenames of distinct
archive entries. -/
def nameIdx (s : String) : Nat :=
  digitsVal ((s.data.drop 6).takeWhile Char.isDigit)

/- ### Helper lemmas: Python string primitives -/

theorem listBeginsWith_append (x y : List Char) :
    listBeginsWith (x ++ y) x = true := by
  induction x with
  | nil => cases y <;> rfl
  | cons a as ih => simp [listBeginsWith, ih]

theorem listEndsWith_append (a t : List Char) :
    listEndsWith (a ++ t) t = true := by
  unfold listEndsWith
  rw [List.reverse_append]
  exact listBeginsWith_append t.reverse a.reverse

/- ### Helper lemmas: decimal digits -/

theorem digitChar_isDigit {d : Nat} (h : d < 10) :
    (digitChar d).isDigit = true := by
  interval_cases d <;> decide

theorem digitVal_digitChar {d : Nat} (h : d < 10) :
    digitVal (digitChar d) = d := by
  interval_cases d <;> decide

theorem natDigitsCore_acc (fuel : Nat) :
    ∀ n acc, natDigitsCore fuel n acc = natDigitsCore fuel n [] ++ acc := by
  induction fuel with
  | zero => intro n acc; rfl
  | succ fuel ih =>
    intro n acc
    by_cases hn : n = 0
    · simp [natDigitsCore, hn]
    · simp only [natDigitsCore, hn, if_false]
      rw [ih (n / 10) (digitChar (n % 10) :: acc),
        ih (n / 10) [digitChar (n % 10)]]
      simp

theorem natDigitsCore_mem_isDigit (fuel : Nat) :
    ∀ n acc, (∀ c ∈ acc, c.isDigit = true) →
      ∀ c ∈ natDigitsCore fuel n acc, c.isDigit = true := by
  induction fuel with
  | zero => intro n acc hacc; exact hacc
  | succ fuel ih =>
    intro n acc hacc c hc
    by_cases hn : n = 0
    · simp only [natDigitsCore, hn, if_true] at hc
      exact hacc c hc
    · simp only [natDigitsCore, hn, if_false] at hc
      refine ih (n / 10) _ ?_ c hc
      intro x hx
      rcases List.mem_cons.mp hx with hx | hx
      · subst hx; exact digitChar_isDigit (Nat.mod_lt n (by norm_num))
      · exact hacc x hx

theorem natDigits_mem_isDigit (n : Nat) :
    ∀ c ∈ natDigits n, c.isDigit = true := by
  unfold natDigits
  by_cases hn : n = 0
  · simp only [hn, if_true]; intro c hc; simp at hc; subst hc; decide
  · simp only [hn, if_false]
    exact natDigitsCore_mem_isDigit (n + 1) n [] (by intro c hc; cases hc)

theorem digitsVal_append_single (l : List Char) (c : Char) :
    digitsVal (l ++ [c]) = digitsVal l * 10 + digitVal c := by
  unfold digitsVal
  rw [List.foldl_append]
  rfl

theorem digitsVal_natDigitsCore :
    ∀ n fuel, n < fuel → digitsVal (natDigitsCore fuel n []) = n := by
  intro n
  induction n using Nat.strong_induction_on with
  | _ n ih =>
    intro fuel hfuel
    match fuel, hfuel with
    | fuel + 1, hfuel =>
      by_cases hn : n = 0
      · simp [natDigitsCore, hn, digitsVal]
      · simp only [natDigitsCore, hn, if_false]
        rw [natDigitsCore_acc]
        rw [digitsVal_append_single]
        have hdiv : n / 10 < n := Nat.div_lt_self (Nat.pos_of_ne_zero hn) (by norm_num)
        have hdivf : n / 10 < fuel := by omega
        rw [ih (n / 10) hdiv fuel hdivf]
        rw [digitVal_digitChar (Nat.mod_lt n (by norm_num))]
        omega

theorem digitsVal_natDigits (n : Nat) : digitsVal (natDigits n) = n := by
  unfold natDigits
  by_cases hn : n = 0
  · simp [hn, digitsVal]; rfl
  · simp only [hn, if_false]
    exact digitsVal_natDigitsCore n (n + 1) (Nat.lt_succ_self n)

/- ### Helper lemmas: archive filenames -/

theorem isSafeChar_of_isDigit {c : Char} (h : c.isDigit = true) :
    isSafeChar c = true := by
  simp [isSafeChar, Char.isAlphanum, h]

theorem filter_safe_natDigits (n : Nat) :
    (natDigits n).filter isSafeChar = natDigits n :=
  List.filter_eq_self.mpr
    (fun c hc => isSafeChar_of_isDigit (natDigits_mem_isDigit n c hc))

theorem filter_cons_safe (c : Char) (X : List Char) (hc : isSafeChar c = true) :
    List.filter isSafeChar (c :: X) = c :: List.filter isSafeChar X := by
  rw [List.filter_cons, if_pos hc]

theorem filter_image_marker (n : Nat) (tail : List Char) :
    List.filter isSafeChar
      ('i' :: 'm' :: 'a' :: 'g' :: 'e' :: '_' :: (natDigits n ++ '_' :: tail))
    = 'i' :: 'm' :: 'a' :: 'g' :: 'e' :: '_' ::
        (natDigits n ++ '_' :: List.filter isSafeChar tail) := by
  rw [filter_cons_safe 'i' _ (by decide), filter_cons_safe 'm' _ (by decide),
    filter_cons_safe 'a' _ (by decide), filter_cons_safe 'g' _ (by decide),
    filter_cons_safe 'e' _ (by decide), filter_cons_safe '_' _ (by decide),
    List.filter_append, filter_safe_natDigits,
    filter_cons_safe '_' _ (by decide)]

theorem marker_ite_decomp (nd tail : List Char) :
    ∃ rest,
      (if listEndsWith ('i' :: 'm' :: 'a' :: 'g' :: 'e' :: '_' :: (nd ++ '_' :: tail))
            PNG_EXTENSION.data = true
       then 'i' :: 'm' :: 'a' :: 'g' :: 'e' :: '_' :: (nd ++ '_' :: tail)
       else ('i' :: 'm' :: 'a' :: 'g' :: 'e' :: '_' :: (nd ++ '_' :: tail)) ++
         PNG_EXTENSION.data)
      = 'i' :: 'm' :: 'a' :: 'g' :: 'e' :: '_' :: (nd ++ '_' :: rest) := by
  split
  · exact ⟨tail, rfl⟩
  · exact ⟨tail ++ PNG_EXTENSION.data, by simp⟩

/-- Every filename produced by `create_zip_archive` is `image_`, then the
digits of the 1-based index, then an underscore, then a remainder. -/
theorem zipFilename_data_decomp (i : Nat) (url : String) :
    ∃ rest, (zipFilename i url).data =
      'i' :: 'm' :: 'a' :: 'g' :: 'e' :: '_' :: (natDigits (i + 1) ++ '_' :: rest) := by
  simp only [zipFilename, List.append_assoc, List.cons_append, List.nil_append]
  rw [filter_image_marker]
  have hd : ∀ l : List Char, (String.mk l).data = l := fun _ => rfl
  rw [apply_ite String.data]
  simp only [hd]
  exact marker_ite_decomp _ _

theorem takeWhile_digit_run (l : List Char) (hl : ∀ c ∈ l, c.isDigit = true)
    (rest : List Char) :
    (l ++ '_' :: rest).takeWhile Char.isDigit = l := by
  induction l with
  | nil => simp [List.takeWhile_cons]
  | cons a as ih =>
    have ha : a.isDigit = true := hl a (List.mem_cons_self a as)
    simp only [List.cons_append, List.takeWhile_cons, ha, if_true]
    rw [ih (fun c hc => hl c (List.mem_cons_of_mem a hc))]

/-- The digit run after `image_` in a generated filename reads back as the
1-based entry index. -/
theorem nameIdx_zipFilename (i : Nat) (url : String) :
    nameIdx (zipFilename i url) = i + 1 := by
  obtain ⟨rest, hdata⟩ := zipFilename_data_decomp i url
  unfold nameIdx
  rw [hdata]
  have hdrop : ∀ X : List Char,
      List.drop 6 ('i' :: 'm' :: 'a' :: 'g' :: 'e' :: '_' :: X) = X := fun _ => rfl
  rw [hdrop]
  rw [takeWhile_digit_run (natDigits (i + 1)) (natDigits_mem_isDigit (i + 1)) rest]
  exact digitsVal_natDigits (i + 1)

theorem zipFilename_ne_of_idx {i j : Nat} (hij : i ≠ j) (u v : String) :
    zipFilename i u ≠ zipFilename j v := by
  intro h
  have := congrArg nameIdx h
  rw [nameIdx_zipFilename, nameIdx_zipFilename] at this
  omega

theorem listEndsWith_ite (stripped png : List Char) :
    listEndsWith
      (if listEndsWith stripped png = true then stripped else stripped ++ png)
      png = true := by
  split
  · next h => exact h
  · exact listEndsWith_append _ _

theorem pyEndsWith_zipFilename (i : Nat) (url : String) :
    pyEndsWith (zipFilename i url) PNG_EXTENSION = true := by
  simp only [zipFilename, pyEndsWith]
  rw [apply_ite String.data]
  exact listEndsWith_ite _ _

/- ### Helper lemmas: archive entries -/

theorem zipEntriesFrom_mem_idx :
    ∀ (l : List (String × Option ImageBytes)) (i : Nat)
      (p : String × ImageBytes), p ∈ zipEntriesFrom i l → i + 1 ≤ nameIdx p.1 := by
  intro l
  induction l with
  | nil => intro i p hp; cases hp
  | cons hd tl ih =>
    intro i p hp
    obtain ⟨url, pb⟩ := hd
    cases pb with
    | some b =>
      simp only [zipEntriesFrom] at hp
      rcases List.mem_cons.mp hp with hp | hp
      · subst hp; rw [nameIdx_zipFilename]
      · have := ih (i + 1) p hp; omega
    | none =>
      simp only [zipEntriesFrom] at hp
      have := ih (i + 1) p hp; omega

theorem zipEntriesFrom_pairwise :
    ∀ (l : List (String × Option ImageBytes)) (i : Nat),
      (zipEntriesFrom i l).Pairwise (fun a b => a.1 ≠ b.1) := by
  intro l
  induction l with
  | nil => intro i; exact List.Pairwise.nil
  | cons hd tl ih =>
    intro i
    obtain ⟨url, pb⟩ := hd
    cases pb with
    | some b =>
      simp only [zipEntriesFrom]
      refine List.Pairwise.cons ?_ (ih (i + 1))
      intro q hq heq
      have hidx := zipEntriesFrom_mem_idx tl (i + 1) q hq
      have heq' : zipFilename i url = q.1 := heq
      have : nameIdx (zipFilename i url) = nameIdx q.1 := by rw [heq']
      rw [nameIdx_zipFilename] at this
      omega
    | none => exact ih (i + 1)

theorem zipEntriesFrom_map_snd :
    ∀ (l : List (String × Option ImageBytes)) (i : Nat),
      (zipEntriesFrom i l).map Prod.snd = l.filterMap Prod.snd := by
  intro l
  induction l with
  | nil => intro i; rfl
  | cons hd tl ih =>
    intro i
    obtain ⟨url, pb⟩ := hd
    cases pb with
    | some b => simp [zipEntriesFrom, List.filterMap_cons, ih (i + 1)]
    | none => simp [zipEntriesFrom, List.filterMap_cons, ih (i + 1)]

theorem zipEntriesFrom_mem_endsWith :
    ∀ (l : List (String × Option ImageBytes)) (i : Nat)
      (p : String × ImageBytes), p ∈ zipEntriesFrom i l →
      pyEndsWith p.1 PNG_EXTENSION = true := by
  intro l
  induction l with
  | nil => intro i p hp; cases hp
  | cons hd tl ih =>
    intro i p hp
    obtain ⟨url, pb⟩ := hd
    cases pb with
    | some b =>
      simp only [zipEntriesFrom] at hp
      rcases List.mem_cons.mp hp with hp | hp
      · subst hp; exact pyEndsWith_zipFilename i url
      · exact ih (i + 1) p hp
    | none =>
      simp only [zipEntriesFrom] at hp
      exact ih (i + 1) p hp

theorem zipEntriesFrom_getElem_allsome :
    ∀ (l : List (String × ImageBytes)) (i j : Nat),
      (zipEntriesFrom i (l.map (fun p => (p.1, some p.2))))[j]? =
        (l[j]?).map (fun p => (zipFilename (i + j) p.1, p.2)) := by
  intro l
  induction l with
  | nil => intro i j; simp [zipEntriesFrom]
  | cons hd tl ih =>
    intro i j
    obtain ⟨url, b⟩ := hd
    cases j with
    | zero => simp [zipEntriesFrom]
    | succ j =>
      simp only [List.map_cons, zipEntriesFrom, List.getElem?_cons_succ]
      rw [ih (i + 1) j]
      have : i + 1 + j = i + (j + 1) := by omega
      rw [this]

/-- The archive filename of the source coincides with the filename algorithm
as worded by the spec, at the corresponding 1-based index. -/
theorem zipFilename_eq_specArchiveFilename (i : Nat) (url : String) :
    zipFilename i url = specArchiveFilename (i + 1) url := rfl

/- ### Helper lemmas: synchronous batch -/

theorem process_image_for_batch_fst (env : String → FetchBehavior)
    (proc : ImageBytes → Except String ImageBytes) (u : String) :
    (process_image_for_batch env proc u).1.1 = u := by
  unfold process_image_for_batch
  cases hf : fetch_image env u with
  | mk r log =>
    cases r with
    | error e => simp
    | ok b =>
      cases hp : proc b with
      | error m => simp [hp]
      | ok pb => simp [hp]

theorem batchOutcomes_getElem (env : String → FetchBehavior)
    (proc : ImageBytes → Except String ImageBytes) (urls : List String)
    (k : Nat) (uk : String) (hk : urls[k]? = some uk) :
    (batchOutcomes env proc urls)[k]? =
      some ((process_image_for_batch env proc uk).1) := by
  unfold batchOutcomes
  rw [List.getElem?_map, hk]
  rfl

/- ### Claims about the synchronous batch path -/

/-- C3: for every valid batch of N input URLs with 1 <= N <= 10, the
synchronous dispatch produces exactly N per-item outcomes, one per input
(the outcome at position j is the processing of the j-th URL), in the same
order as the inputs. -/
theorem c3_dispatch_one_outcome_per_input (env : String → FetchBehavior)
    (proc : ImageBytes → Except String ImageBytes) (urls : List String)
    (h1 : 1 ≤ urls.length) (h2 : urls.length ≤ MAX_BATCH_SIZE) :
    (batchOutcomes env proc urls).length = urls.length ∧
    (batchOutcomes env proc urls).map Prod.fst = urls ∧
    (∀ (j : Nat) (u : String), urls[j]? = some u →
      (batchOutcomes env proc urls)[j]? =
        some ((process_image_for_batch env proc u).1)) := by
  refine ⟨by simp [batchOutcomes], ?_, ?_⟩
  · unfold batchOutcomes
    rw [List.map_map]
    have : ∀ u ∈ urls,
        (Prod.fst ∘ fun v => (process_image_for_batch env proc v).1) u = id u :=
      fun u _ => process_image_for_batch_fst env proc u
    rw [List.map_congr_left this, List.map_id]
  · intro j u hj
    exact batchOutcomes_getElem env proc urls j u hj

/-- Witness for C3 at a concrete two-element batch. -/
theorem c3_dispatch_one_outcome_per_input_witness :
    (batchOutcomes (fun _ => .resp ⟨200, "image/png", [7]⟩) (fun b => .ok b)
        ["https://e/a.png", "https://e/b.png"]).map Prod.fst =
      ["https://e/a.png", "https://e/b.png"] :=
  (c3_dispatch_one_outcome_per_input
    (fun _ => .resp ⟨200, "image/png", [7]⟩) (fun b => .ok b)
    ["https://e/a.png", "https://e/b.png"] (by decide) (by decide)).2.1

/-- C4: a batch of 0 items and a batch of more than MAX_BATCH_SIZE items are
both rejected with HTTP 400 by the synchronous endpoint and by the
asynchronous submission endpoint, without any remote operation being
invoked (the recorded call list is empty). -/
theorem c4_bounds_rejected_before_remote_calls (env : String → FetchBehavior)
    (proc : ImageBytes → Except String ImageBytes)
    (engine : String → FlowRunHandle) (urls : List String) :
    (urls = [] →
      remove_backgrounds_batch env proc urls =
        (.error ⟨400, "At least one image URL is required"⟩, []) ∧
      start_batch_processing engine urls =
        (.error ⟨400, "At least one image URL is required"⟩, [])) ∧
    (MAX_BATCH_SIZE < urls.length →
      remove_backgrounds_batch env proc urls =
        (.error ⟨400, "Maximum 10 images allowed per batch request"⟩, []) ∧
      start_batch_processing engine urls =
        (.error ⟨400, "Maximum " ++ natRepr MAX_BATCH_SIZE ++
          " images allowed per batch request"⟩, [])) := by
  constructor
  · intro h; subst h; exact ⟨rfl, rfl⟩
  · intro h
    have hne : ¬(urls.isEmpty = true) := by
      cases urls with
      | nil => simp at h
      | cons a l => simp
    constructor
    · unfold remove_backgrounds_batch
      rw [if_neg hne, if_pos h]
    · unfold start_batch_processing
      rw [if_neg hne, if_pos h]

/-- Witness for C4 at the empty batch and at an 11-element batch. -/
theorem c4_bounds_rejected_before_remote_calls_witness :
    (remove_backgrounds_batch (fun _ => .transportFail "x") (fun b => .ok b) [] =
      (.error ⟨400, "At least one image URL is required"⟩, [])) ∧
    (start_batch_processing (fun _ => ⟨"f"⟩) (List.replicate 11 "u") =
      (.error ⟨400, "Maximum " ++ natRepr MAX_BATCH_SIZE ++
        " images allowed per batch request"⟩, [])) :=
  ⟨((c4_bounds_rejected_before_remote_calls (fun _ => .transportFail "x")
      (fun b => .ok b) (fun _ => ⟨"f"⟩) []).1 rfl).1,
   ((c4_bounds_rejected_before_remote_calls (fun _ => .transportFail "x")
      (fun b => .ok b) (fun _ => ⟨"f"⟩) (List.replicate 11 "u")).2 (by decide)).2⟩

/-- C2: a failing item in a batch yields a failed outcome for that item only;
every other item keeps exactly the outcome of its own independent
processing, and in a 3-input batch where exactly the middle item fails the
other two outcomes carry a payload (success). -/
theorem c2_per_item_failure_isolation (env : String → FetchBehavior)
    (proc : ImageBytes → Except String ImageBytes) (urls : List String)
    (j : Nat) (uj : String) (hj : urls[j]? = some uj)
    (hfail : (process_image_for_batch env proc uj).1.2 = none) :
    (batchOutcomes env proc urls)[j]? = some (uj, none) ∧
    (∀ (k : Nat) (uk : String), urls[k]? = some uk →
      (batchOutcomes env proc urls)[k]? =
        some ((process_image_for_batch env proc uk).1)) ∧
    (∀ u1 u2 u3 : String,
      (process_image_for_batch env proc u2).1.2 = none →
      ((process_image_for_batch env proc u1).1.2).isSome = true →
      ((process_image_for_batch env proc u3).1.2).isSome = true →
      (batchOutcomes env proc [u1, u2, u3]).map (fun p => p.2.isSome) =
        [true, false, true]) := by
  refine ⟨?_, ?_, ?_⟩
  · rw [batchOutcomes_getElem env proc urls j uj hj]
    have hpair : (process_image_for_batch env proc uj).1 = (uj, none) := by
      have h1 := process_image_for_batch_fst env proc uj
      exact Prod.ext h1 hfail
    rw [hpair]
  · intro k uk hk
    exact batchOutcomes_getElem env proc urls k uk hk
  · intro u1 u2 u3 h2 h1 h3
    simp [batchOutcomes, h1, h3]
    simp [h2]

/-- Witness for C2 at a 3-input batch whose middle URL suffers a transport
failure. -/
theorem c2_per_item_failure_isolation_witness :
    (batchOutcomes
        (fun u => if u = "b" then .transportFail "boom"
                  else .resp ⟨200, "image/png", [7]⟩)
        (fun b => .ok b) ["a", "b", "c"]).map (fun p => p.2.isSome) =
      [true, false, true] :=
  (c2_per_item_failure_isolation
    (fun u => if u = "b" then .transportFail "boom"
              else .resp ⟨200, "image/png", [7]⟩)
    (fun b => .ok b) ["a", "b", "c"] 1 "b" (by decide) (by decide)).2.2
    "a" "b" "c" (by decide) (by decide) (by decide)

/-- C5: for an in-bounds synchronous batch, the request fails (necessarily
with the HTTP 500 all-failed error) exactly when no item succeeded, and when
at least one item succeeded it returns 200 with the ZIP archive built from
exactly the successful results. -/
theorem c5_all_failed_500_partial_200 (env : String → FetchBehavior)
    (proc : ImageBytes → Except String ImageBytes) (urls : List String)
    (h1 : 1 ≤ urls.length) (h2 : urls.length ≤ MAX_BATCH_SIZE) :
    ((remove_backgrounds_batch env proc urls).1 =
        .error ⟨500, "Failed to process any of the provided images"⟩ ↔
      successfulResults (batchOutcomes env proc urls) = []) ∧
    (successfulResults (batchOutcomes env proc urls) ≠ [] →
      (remove_backgrounds_batch env proc urls).1 =
        .ok { statusCode := 200,
              content := create_zip_archive
                ((successfulResults (batchOutcomes env proc urls)).map
                  (fun p => (p.1, some p.2))),
              mediaType := MEDIA_TYPE_ZIP }) ∧
    (∀ e, (remove_backgrounds_batch env proc urls).1 = .error e →
      e.statusCode = 500) := by
  have hne : ¬(urls.isEmpty = true) := by
    cases urls with
    | nil => simp at h1
    | cons a l => simp
  have hle : ¬(MAX_BATCH_SIZE < urls.length) := by omega
  unfold remove_backgrounds_batch
  rw [if_neg hne, if_neg hle]
  by_cases hs : (successfulResults (batchOutcomes env proc urls)).isEmpty = true
  · rw [if_pos hs]
    have hsl : successfulResults (batchOutcomes env proc urls) = [] := by
      simpa using hs
    refine ⟨by simp [hsl], fun hcon => absurd hsl hcon, ?_⟩
    intro e he
    simp only at he
    cases he
    rfl
  · rw [if_neg hs]
    have hsl : successfulResults (batchOutcomes env proc urls) ≠ [] := by
      simpa using hs
    refine ⟨?_, fun _ => rfl, ?_⟩
    · constructor
      · intro hcon; simp at hcon
      · intro hcon; exact absurd hcon hsl
    · intro e he; simp at he

/-- Witness for C5 at a 2-input batch with one failing URL. -/
theorem c5_all_failed_500_partial_200_witness :
    (remove_backgrounds_batch
        (fun u => if u = "b" then .transportFail "boom"
                  else .resp ⟨200, "image/png", [7]⟩)
        (fun b => .ok b) ["a", "b"]).1 =
      .ok { statusCode := 200,
            content := create_zip_archive
              ((successfulResults (batchOutcomes
                  (fun u => if u = "b" then .transportFail "boom"
                            else .resp ⟨200, "image/png", [7]⟩)
                  (fun b => .ok b) ["a", "b"])).map (fun p => (p.1, some p.2))),
            mediaType := MEDIA_TYPE_ZIP } :=
  (c5_all_failed_500_partial_200
    (fun u => if u = "b" then .transportFail "boom"
              else .resp ⟨200, "image/png", [7]⟩)
    (fun b => .ok b) ["a", "b"] (by decide) (by decide)).2.1 (by decide)

/- ### Helper lemmas: flow aggregation -/

theorem remove_background_single_image_shape (env : String → FetchBehavior)
    (proc : ImageBytes → Except String ImageBytes) (u : String) :
    (remove_background_single_image env proc u).2.2 = none →
    ((remove_background_single_image env proc u).2.1).isSome = true := by
  unfold remove_background_single_image
  cases hf : flowFetch env u with
  | error e => simp
  | ok b =>
    cases hp : proc b with
    | error m => simp [hp]
    | ok pb => simp [hp]

theorem flowCollect_counts (l : List (String × Option ImageBytes × Option String))
    (hshape : ∀ x ∈ l, x.2.2 = none → (x.2.1).isSome = true) :
    (flowCollect l).1.length = l.length ∧
    (flowCollect l).2.1.length = (flowCollect l).1.countP (fun r => r.success) := by
  induction l with
  | nil => exact ⟨rfl, rfl⟩
  | cons hd tl ih =>
    obtain ⟨url, pb, err⟩ := hd
    have hh := hshape (url, pb, err) (List.mem_cons_self _ _)
    have htl : ∀ x ∈ tl, x.2.2 = none → (x.2.1).isSome = true :=
      fun x hx => hshape x (List.mem_cons_of_mem _ hx)
    obtain ⟨ih1, ih2⟩ := ih htl
    rcases pb with _ | b <;> rcases err with _ | e
    · exact absurd (hh rfl) (by simp)
    · refine ⟨?_, ?_⟩ <;> simp [flowCollect, List.countP_cons, ih1, ih2]
    · refine ⟨?_, ?_⟩ <;> simp [flowCollect, List.countP_cons, ih1, ih2]
    · refine ⟨?_, ?_⟩ <;> simp [flowCollect, List.countP_cons, ih1, ih2]

/-- C6: for every composition of per-item successes and failures, the flow
aggregate satisfies `successful_count` equal to the number of per-item
results marked successful, and `total_images` equal to the number of
per-item results, which equals the originating request length. -/
theorem c6_aggregate_invariant (env : String → FetchBehavior)
    (proc : ImageBytes → Except String ImageBytes) (urls : List String) :
    (batch_background_removal_flow env proc urls).successful_count =
      (flowItemResults env proc urls).countP (fun r => r.success) ∧
    (batch_background_removal_flow env proc urls).total_images =
      (flowItemResults env proc urls).length ∧
    (batch_background_removal_flow env proc urls).total_images = urls.length := by
  have hshape : ∀ x ∈ urls.map (remove_background_single_image env proc),
      x.2.2 = none → (x.2.1).isSome = true := by
    intro x hx
    obtain ⟨u, hu, rfl⟩ := List.mem_map.mp hx
    exact remove_background_single_image_shape env proc u
  obtain ⟨hlen, hcnt⟩ := flowCollect_counts _ hshape
  refine ⟨hcnt, ?_, rfl⟩
  show urls.length = (flowItemResults env proc urls).length
  unfold flowItemResults
  rw [hlen, List.length_map]

/- ### Helper lemmas: polling -/

theorem pollHandle_success_eq (engine : String → JobState) (h : String) :
    (pollHandle engine h).success = jobIsCompletedSuccess (engine h) := by
  cases hs : engine h <;> simp [pollHandle, jobIsCompletedSuccess, hs]

/-- C9: a handle still RUNNING polls as success is false with no error
(hence distinguishable from any failed handle, which carries an error), the
reported success count counts exactly the handles observed in the
successful-completion state, the total counts all polled handles, and the
source status endpoint reports successful_tasks 1 and total_tasks 2 for one
COMPLETED and one RUNNING task. -/
theorem c9_poll_running_and_snapshot_count (engine : String → JobState)
    (handles : List String) (h : String) (hrun : engine h = .RUNNING) :
    (pollHandle engine h).success = false ∧
    (pollHandle engine h).error = none ∧
    (∀ (h2 : String) (e : String), engine h2 = .COMPLETED_FAILURE e →
      pollHandle engine h ≠ pollHandle engine h2) ∧
    (pollBatch engine handles).success_count =
      (handles.filter (fun x => jobIsCompletedSuccess (engine x))).length ∧
    (pollBatch engine handles).total_count = handles.length ∧
    (get_batch_status_progress [⟨some .COMPLETED⟩, ⟨some .RUNNING⟩]).successful_tasks = 1 ∧
    (get_batch_status_progress [⟨some .COMPLETED⟩, ⟨some .RUNNING⟩]).total_tasks = 2 := by
  refine ⟨by simp [pollHandle, hrun], by simp [pollHandle, hrun], ?_, ?_, ?_,
    by decide, by decide⟩
  · intro h2 e hfail heq
    have herr := congrArg ItemOutcome.error heq
    simp [pollHandle, hrun, hfail] at herr
  · simp only [pollBatch]
    rw [List.filter_map]
    rw [List.length_map]
    congr 1
    apply List.filter_congr
    intro x _
    show (pollHandle engine x).success = jobIsCompletedSuccess (engine x)
    exact pollHandle_success_eq engine x
  · simp [pollBatch]

/-- Witness for C9: one handle observed COMPLETED_SUCCESS and one RUNNING
give success count 1 of total 2, the RUNNING item carrying no error. -/
theorem c9_poll_running_and_snapshot_count_witness :
    (pollBatch (fun x => if x = "h1" then .COMPLETED_SUCCESS [7] else .RUNNING)
        ["h1", "h2"]).success_count = 1 ∧
    (pollBatch (fun x => if x = "h1" then .COMPLETED_SUCCESS [7] else .RUNNING)
        ["h1", "h2"]).total_count = 2 ∧
    (pollHandle (fun x => if x = "h1" then .COMPLETED_SUCCESS [7] else .RUNNING)
        "h2").error = none := by
  have hc := c9_poll_running_and_snapshot_count
    (fun x => if x = "h1" then .COMPLETED_SUCCESS [7] else .RUNNING)
    ["h1", "h2"] "h2" (by decide)
  refine ⟨hc.2.2.2.1.trans (by decide), hc.2.2.2.2.1.trans (by decide), hc.2.1⟩

/-- C10: a completed asynchronous flow whose retrieved result holds zero
successful items makes the download endpoint fail with HTTP 404 and detail
"No successfully processed images found"; no archive response is produced. -/
theorem c10_download_all_failed_404 (fr : FlowRunInfo) (r : FlowResult)
    (flowId : String) (hstate : fr.state = some .COMPLETED)
    (hempty : r.successful_results = []) :
    download_batch_results (some fr) (some r) flowId =
      .error ⟨404, "No successfully processed images found"⟩ := by
  simp [download_batch_results, hstate, hempty, stateIsCompleted, stateIsRunning]

/-- Witness for C10 at a concrete completed flow with three failed items. -/
theorem c10_download_all_failed_404_witness :
    download_batch_results (some ⟨some .COMPLETED⟩)
        (some { total_images := 3, successful_count := 0, failed_count := 3,
                successful_results := [],
                failed_results := [⟨"u1", some "e"⟩, ⟨"u2", some "e"⟩, ⟨"u3", some "e"⟩],
                processing_complete := true }) "fid" =
      .error ⟨404, "No successfully processed images found"⟩ :=
  c10_download_all_failed_404 ⟨some .COMPLETED⟩ _ "fid" rfl rfl

/-- C1 (divergence witness): the asynchronous submission endpoint, given an
accepted batch of 2 items, performs exactly one workflow-engine invocation
and returns a single flow handle (with image_count 2), not one handle per
item. -/
theorem c1_submission_single_engine_call :
    (start_batch_processing (fun _ => ⟨"flow-1"⟩)
        ["https://e/a.png", "https://e/b.png"]).2 =
      [RemoteCall.runDeployment BATCH_DEPLOYMENT_PATH] ∧
    ((start_batch_processing (fun _ => ⟨"flow-1"⟩)
        ["https://e/a.png", "https://e/b.png"]).2).length = 1 ∧
    (start_batch_processing (fun _ => ⟨"flow-1"⟩)
        ["https://e/a.png", "https://e/b.png"]).1 =
      .ok { flow_id := "flow-1",
            message := "Started processing " ++ natRepr 2 ++ " images",
            status := "RUNNING",
            image_count := 2 } :=
  ⟨rfl, rfl, rfl⟩

/-- C7: for every ordered sequence of successful (identifier, payload)
outcomes given to the archive builder, the j-th entry filename equals the
spec filename algorithm applied at the 1-based position j+1 within the
successful subset and the j-th URL. -/
theorem c7_filename_matches_spec_algorithm (entries : List (String × ImageBytes))
    (j : Nat) (uj : String) (b : ImageBytes)
    (hj : entries[j]? = some (uj, b)) :
    ((create_zip_archive (entries.map (fun p => (p.1, some p.2)))).map Prod.fst)[j]? =
      some (specArchiveFilename (j + 1) uj) := by
  unfold create_zip_archive
  rw [List.getElem?_map, zipEntriesFrom_getElem_allsome entries 0 j, hj]
  show some (zipFilename (0 + j) uj) = some (specArchiveFilename (j + 1) uj)
  rw [Nat.zero_add j, zipFilename_eq_specArchiveFilename]

/-- Witness for C7 at a concrete one-entry archive, with the filename fully
evaluated. -/
theorem c7_filename_matches_spec_algorithm_witness :
    ((create_zip_archive ([("https://example.com/a.png", ([7] : ImageBytes))].map
        (fun p => (p.1, some p.2)))).map Prod.fst)[0]? =
      some (specArchiveFilename 1 "https://example.com/a.png") ∧
    specArchiveFilename 1 "https://example.com/a.png" = "image_1_a.png.png" :=
  ⟨c7_filename_matches_spec_algorithm [("https://example.com/a.png", [7])] 0
      "https://example.com/a.png" [7] (by decide),
    by decide⟩

/-- C8: an archive built from outcomes with k successful payloads contains
exactly k entries; the entry bytes are exactly the successful payloads in
order, the filenames are pairwise distinct, and every filename ends in
`.png`. -/
theorem c8_archive_entries_unique_png (processed : List (String × Option ImageBytes)) :
    (create_zip_archive processed).length = (processed.filterMap Prod.snd).length ∧
    (create_zip_archive processed).map Prod.snd = processed.filterMap Prod.snd ∧
    ((create_zip_archive processed).map Prod.fst).Pairwise (fun a b => a ≠ b) ∧
    (∀ nm ∈ (create_zip_archive processed).map Prod.fst,
      pyEndsWith nm PNG_EXTENSION = true) := by
  refine ⟨?_, zipEntriesFrom_map_snd processed 0, ?_, ?_⟩
  · show (zipEntriesFrom 0 processed).length = _
    rw [← zipEntriesFrom_map_snd processed 0, List.length_map]
  · show ((zipEntriesFrom 0 processed).map Prod.fst).Pairwise (fun a b => a ≠ b)
    rw [List.pairwise_map]
    exact zipEntriesFrom_pairwise processed 0
  · intro nm hnm
    obtain ⟨p, hp, rfl⟩ := List.mem_map.mp hnm
    exact zipEntriesFrom_mem_endsWith processed 0 p hp
